import Mathlib

/-!
Shallow embedding of the CSV → metafield-definition import pipeline of this
repository.  Two near-duplicate route implementations exist:

* variant A (`src/app/routes/app._index.tsx`): returns `{ log }` only, has no
  empty-file check, embeds row values into the mutation template unescaped,
  and reads `json.data.metafieldDefinitionCreate` without optional chaining;
* variant B (`src/unnamed/part_000`): returns `{ status, log }`, checks for an
  empty CSV, escapes backslash/quote via `esc`, and uses optional chaining.

CSV rows (the output of `parse(buffer, { columns: true, ... })`) are modelled
as association lists from column name to cell string; the external admin
GraphQL collaborator is modelled as an oracle giving, for each row position,
either a parsed JSON response or a thrown exception message.  Each action
additionally records the list of mutation payloads it sent, so that claims
about "zero network calls" are statable.
-/

/-- A parsed CSV row: an object keyed by the header names, as produced by
`parse(buffer, { columns: true, skip_empty_lines: true })`.  `Object.keys` of
the row is the list of first components. -/
abbrev Row : Type := List (String × String)

/-- Outcome of handing the byte buffer to the CSV decoder: either the parsed
rows, or a thrown decode exception carrying a message.  The actions do not
wrap the `parse` call in any try/catch. -/
inductive ParseResult where
  | ok (rows : List Row)
  | err (msg : String)
deriving DecidableEq

/-- `createdDefinition { id name key }` of a successful creation response. -/
structure CreatedDefinition where
  id : String
  name : String
  key : String
deriving DecidableEq

/-- One entry of the `userErrors { message }` array. -/
structure UserError where
  message : String
deriving DecidableEq

/-- The `data.metafieldDefinitionCreate` object of a parsed response; either
sub-field may be absent. -/
structure MetafieldDefinitionCreate where
  createdDefinition : Option CreatedDefinition
  userErrors : Option (List UserError)
deriving DecidableEq

/-- The `data` object of a parsed response; `metafieldDefinitionCreate` may be
absent. -/
structure RespData where
  metafieldDefinitionCreate : Option MetafieldDefinitionCreate
deriving DecidableEq

/-- A parsed JSON response, `await resp.json()`; `data` may be absent. -/
structure RespJson where
  data : Option RespData
deriving DecidableEq

/-- What the external admin GraphQL collaborator does for one call: either a
response whose JSON parses to `j`, or a thrown exception whose `.message` is
`msg` (covering both transport failures of `admin.graphql` and failures of
`resp.json()`). -/
inductive GraphQLResult where
  | success (j : RespJson)
  | failure (msg : String)
deriving DecidableEq

/-- `esc` of variant B, at the character level:
`v.replace(/\\/g, "\\\\").replace(/"/g, '\\"')`.  The two sequential global
replaces equal this single pass, because the first pass introduces only
backslashes (never quotes) and the second pass rewrites only quotes (which the
first pass left untouched). -/
def escList : List Char → List Char
  | [] => []
  | c :: cs =>
    if c = '\\' then '\\' :: '\\' :: escList cs
    else if c = '"' then '\\' :: '"' :: escList cs
    else c :: escList cs

/-- `esc` of variant B on strings. -/
def esc (v : String) : String := ⟨escList v.data⟩

/-- How a reader of a quoted string literal interprets an escaped character
sequence: a backslash makes the following character literal (a trailing lone
backslash is kept as is). -/
def unescList : List Char → List Char
  | [] => []
  | c :: cs =>
    if c = '\\' then
      match cs with
      | [] => ['\\']
      | c2 :: cs2 => c2 :: unescList cs2
    else c :: unescList cs

/-- String-level interpretation of escapes inside a quoted literal. -/
def unesc (v : String) : String := ⟨unescList v.data⟩

/-- Whether a character sequence placed inside a quoted string literal would
terminate the literal early: scanning left to right, a backslash consumes the
next character, and a bare double quote ends the literal. -/
def breaksLiteral : List Char → Bool
  | [] => false
  | c :: cs =>
    if c = '\\' then
      match cs with
      | [] => false
      | _ :: cs2 => breaksLiteral cs2
    else if c = '"' then true
    else breaksLiteral cs

/-- The mutation template literal, shared verbatim by both route variants;
variant A passes the trimmed row values directly, variant B passes them
through `esc`. -/
def mutationOf (name key ty desc : String) : String :=
  "\n      mutation \x7b\n        metafieldDefinitionCreate(\n          definition: \x7b\n            name: \"" ++ name ++
  "\"\n            namespace: \"custom\"\n            key: \"" ++ key ++
  "\"\n            type: \"" ++ ty ++
  "\"\n            description: \"" ++ desc ++
  "\"\n            ownerType: PRODUCT\n          \x7d\n        ) \x7b\n          createdDefinition \x7b id name key \x7d\n          userErrors \x7b message \x7d\n        \x7d\n      \x7d\n    "

/-- `String.prototype.trim`: strip leading and trailing whitespace.  Modelled
at the character level (rather than through `String.trim`, which is defined by
well-founded recursion on byte positions) so that it evaluates by kernel
reduction on concrete inputs. -/
def trim (s : String) : String :=
  ⟨((s.data.dropWhile Char.isWhitespace).reverse.dropWhile
      Char.isWhitespace).reverse⟩

/-- `row.<h>?.trim()`: look the column up in the row object and trim it. -/
def fieldOf (r : Row) (h : String) : Option String :=
  (List.lookup h r).map trim

/-- `row.Description?.trim() || ""`: a missing `Description` is `undefined`
and an all-whitespace one trims to the falsy `""`; both fall back to `""`. -/
def descOf (r : Row) : String :=
  (fieldOf r "Description").getD ""

/-- The guard `if (!name || !key || !type)` of both variants: `some (n, k, t)`
exactly when all three trimmed values exist and are non-empty. -/
def validFields (r : Row) : Option (String × String × String) :=
  match fieldOf r "Name", fieldOf r "Key", fieldOf r "Type" with
  | some n, some k, some t =>
    if n = "" || k = "" || t = "" then none else some (n, k, t)
  | _, _, _ => none

/-- `json.data?.metafieldDefinitionCreate?.createdDefinition` (variant B). -/
def createdOf (j : RespJson) : Option CreatedDefinition :=
  (j.data.bind RespData.metafieldDefinitionCreate).bind
    MetafieldDefinitionCreate.createdDefinition

/-- `json.data?.metafieldDefinitionCreate?.userErrors` (variant B). -/
def userErrorsOf (j : RespJson) : Option (List UserError) :=
  (j.data.bind RespData.metafieldDefinitionCreate).bind
    MetafieldDefinitionCreate.userErrors

/-- Variant B response interpretation: created beats user errors beats the
unknown-response fallback; `errors?.length` is truthy only for a present,
non-empty array. -/
def respLineB (name key : String) (j : RespJson) : String :=
  match createdOf j with
  | some _ => "✅ Created metafield: " ++ name ++ " (" ++ key ++ ")"
  | none =>
    match userErrorsOf j with
    | some es =>
      if es.isEmpty then "⚠️ Unknown response for " ++ name
      else "⚠️ " ++ name ++ " → " ++ String.intercalate ", " (es.map UserError.message)
    | none => "⚠️ Unknown response for " ++ name

/-- The message of the TypeError raised by reading property `p` of
`undefined`; the exact wording is host-engine specific, modelled here after
the V8 wording (without quote characters). -/
def undefinedReadMsg (p : String) : String :=
  "Cannot read properties of undefined (reading " ++ p ++ ")"

/-- Variant A response interpretation: `json.data.metafieldDefinitionCreate`
is read without optional chaining, so an absent `data` (or an absent
`metafieldDefinitionCreate`) throws inside the per-row `try` and is reported
through the same catch as a transport failure. -/
def respLineA (name key : String) (j : RespJson) : String :=
  match j.data with
  | none => "❌ Failed for " ++ name ++ " → " ++ undefinedReadMsg "metafieldDefinitionCreate"
  | some d =>
    match d.metafieldDefinitionCreate with
    | none => "❌ Failed for " ++ name ++ " → " ++ undefinedReadMsg "createdDefinition"
    | some m =>
      match m.createdDefinition with
      | some _ => "✅ Created metafield: " ++ name ++ " (" ++ key ++ ")"
      | none =>
        match m.userErrors with
        | some es =>
          if es.isEmpty then "⚠️ Unknown response for " ++ name
          else "⚠️ " ++ name ++ " → " ++ String.intercalate ", " (es.map UserError.message)
        | none => "⚠️ Unknown response for " ++ name

/-- One iteration of variant B's row loop on row `r`, given the collaborator's
behaviour `g` for that row's call: the log line appended, and the mutation
payloads sent (none for a skipped row, one otherwise). -/
def stepB (g : GraphQLResult) (r : Row) : String × List String :=
  match validFields r with
  | none => ("⚠️ Skipped row — missing name/key/type", [])
  | some (n, k, t) =>
    let m := mutationOf (esc n) (esc k) (esc t) (esc (descOf r))
    match g with
    | .failure msg => ("❌ Failed for " ++ n ++ " → " ++ msg, [m])
    | .success j => (respLineB n k j, [m])

/-- One iteration of variant A's row loop: identical to `stepB` except that
the payload embeds the raw values and the response is read without optional
chaining. -/
def stepA (g : GraphQLResult) (r : Row) : String × List String :=
  match validFields r with
  | none => ("⚠️ Skipped row — missing name/key/type", [])
  | some (n, k, t) =>
    let m := mutationOf n k t (descOf r)
    match g with
    | .failure msg => ("❌ Failed for " ++ n ++ " → " ++ msg, [m])
    | .success j => (respLineA n k j, [m])

/-- Variant B's `for (const row of rows)` loop, with the oracle indexed by row
position `i`: the accumulated `finalLog` and the payloads sent, in order. -/
def processB (oracle : Nat → GraphQLResult) : Nat → List Row → List String × List String
  | _, [] => ([], [])
  | i, r :: rs =>
    let s := stepB (oracle i) r
    let rest := processB oracle (i + 1) rs
    (s.1 :: rest.1, s.2 ++ rest.2)

/-- Variant A's row loop. -/
def processA (oracle : Nat → GraphQLResult) : Nat → List Row → List String × List String
  | _, [] => ([], [])
  | i, r :: rs =>
    let s := stepA (oracle i) r
    let rest := processA oracle (i + 1) rs
    (s.1 :: rest.1, s.2 ++ rest.2)

/-- `Object.keys(rows[0] || {})`. -/
def headersOf (rows : List Row) : List String :=
  (rows.head?.getD []).map Prod.fst

/-- `requiredHeaders.filter((h) => !headers.includes(h))`. -/
def missingHeaders (rows : List Row) : List String :=
  ["Name", "Key", "Type"].filter (fun h => !((headersOf rows).contains h))

/-- What an action hands back to the caller, instrumented with the list of
mutation payloads it sent over the network.  Variant A carries no `status`
field (`status = none`); variant B always sets it. -/
structure ActionResult where
  status : Option String
  log : List String
  calls : List String
deriving DecidableEq

/-- The fixed structural error log of variant A's header validation. -/
def invalidFormatLogA : List String :=
  ["❌ Invalid CSV format.",
   "This app only accepts a Metafield Definitions CSV.",
   "Required columns:",
   "Name, Key, Type, Description",
   "", "", ""]

/-- The fixed structural error log of variant B's header validation. -/
def invalidFormatLogB : List String :=
  ["❌ Invalid CSV format.",
   "Required columns:",
   "Name, Key, Type, Description"]

/-- Variant A's action (`src/app/routes/app._index.tsx`), from the point where
the `file` form field has been extracted.  `req = none` models a missing file;
`some (.err m)` models the CSV decoder throwing (the action has no try/catch
around `parse`, so the exception propagates as `Except.error`).  There is no
empty-file branch: zero rows reach header validation with an empty key set. -/
def actionA (oracle : Nat → GraphQLResult) (req : Option ParseResult) :
    Except String ActionResult :=
  match req with
  | none => .ok ⟨none, ["❌ No file uploaded"], []⟩
  | some (.err m) => .error m
  | some (.ok rows) =>
    if 0 < (missingHeaders rows).length then
      .ok ⟨none, invalidFormatLogA, []⟩
    else
      let p := processA oracle 0 rows
      .ok ⟨none, p.1, p.2⟩

/-- Variant B's action (`src/unnamed/part_000`): adds the `status` field and
the `!rows.length` empty-file check ahead of header validation. -/
def actionB (oracle : Nat → GraphQLResult) (req : Option ParseResult) :
    Except String ActionResult :=
  match req with
  | none => .ok ⟨some "error", ["❌ No file uploaded"], []⟩
  | some (.err m) => .error m
  | some (.ok rows) =>
    if rows.length = 0 then
      .ok ⟨some "error", ["❌ CSV file is empty"], []⟩
    else if 0 < (missingHeaders rows).length then
      .ok ⟨some "error", invalidFormatLogB, []⟩
    else
      let p := processB oracle 0 rows
      .ok ⟨some "success", p.1, p.2⟩

/-- Structural failure of a submission, as variant B classifies it: missing
file, empty CSV, or missing required headers.  A decode exception yields no
result at all, so it is not a structural failure in this sense. -/
def structuralFailure (req : Option ParseResult) : Bool :=
  match req with
  | none => true
  | some (.err _) => false
  | some (.ok rows) => rows.isEmpty || !(missingHeaders rows).isEmpty

/-! ## Basic lemmas about the embedding -/

theorem unescList_cons_ne (c : Char) (cs : List Char) (h1 : ¬c = '\\') :
    unescList (c :: cs) = c :: unescList cs := by
  rw [unescList.eq_def]
  simp [h1]

theorem breaksLiteral_cons_ne (c : Char) (cs : List Char) (h1 : ¬c = '\\')
    (h2 : ¬c = '"') : breaksLiteral (c :: cs) = breaksLiteral cs := by
  rw [breaksLiteral.eq_def]
  simp [h1, h2]

theorem unescList_escList (l : List Char) : unescList (escList l) = l := by
  induction l with
  | nil => rfl
  | cons c cs ih =>
    by_cases h1 : c = '\\'
    · subst h1
      simp [escList, unescList, ih]
    · by_cases h2 : c = '"'
      · subst h2
        simp [escList, unescList, h1, ih]
      · simp [escList, h1, h2, unescList_cons_ne c _ h1, ih]

theorem breaksLiteral_escList (l : List Char) : breaksLiteral (escList l) = false := by
  induction l with
  | nil => rfl
  | cons c cs ih =>
    by_cases h1 : c = '\\'
    · subst h1
      simp [escList, breaksLiteral, ih]
    · by_cases h2 : c = '"'
      · subst h2
        simp [escList, breaksLiteral, h1, ih]
      · simp [escList, h1, h2, breaksLiteral_cons_ne c _ h1 h2, ih]

theorem unesc_esc (v : String) : unesc (esc v) = v := by
  show String.mk (unescList (escList v.data)) = v
  rw [unescList_escList]

theorem breaksLiteral_esc (v : String) : breaksLiteral (esc v).data = false :=
  breaksLiteral_escList v.data

theorem processB_fst (oracle : Nat → GraphQLResult) (rows : List Row) :
    ∀ i, (processB oracle i rows).1 =
      rows.mapIdx fun j r => (stepB (oracle (i + j)) r).1 := by
  induction rows with
  | nil => intro i; simp [processB]
  | cons r rs ih =>
    intro i
    rw [List.mapIdx_cons]
    show (stepB (oracle i) r).1 :: (processB oracle (i + 1) rs).1 = _
    rw [ih (i + 1)]
    have hf : (fun j (r : Row) => (stepB (oracle (i + 1 + j)) r).1) =
        fun j (r : Row) => (stepB (oracle (i + (j + 1))) r).1 := by
      funext j r
      have : i + 1 + j = i + (j + 1) := by omega
      rw [this]
    simp [hf]

theorem processA_fst (oracle : Nat → GraphQLResult) (rows : List Row) :
    ∀ i, (processA oracle i rows).1 =
      rows.mapIdx fun j r => (stepA (oracle (i + j)) r).1 := by
  induction rows with
  | nil => intro i; simp [processA]
  | cons r rs ih =>
    intro i
    rw [List.mapIdx_cons]
    show (stepA (oracle i) r).1 :: (processA oracle (i + 1) rs).1 = _
    rw [ih (i + 1)]
    have hf : (fun j (r : Row) => (stepA (oracle (i + 1 + j)) r).1) =
        fun j (r : Row) => (stepA (oracle (i + (j + 1))) r).1 := by
      funext j r
      have : i + 1 + j = i + (j + 1) := by omega
      rw [this]
    simp [hf]

theorem missingHeaders_eq_nil_iff (rows : List Row) :
    missingHeaders rows = [] ↔
      ("Name" ∈ headersOf rows ∧ "Key" ∈ headersOf rows ∧ "Type" ∈ headersOf rows) := by
  simp [missingHeaders, List.filter_eq_nil_iff]

theorem validFields_eq_none (r : Row)
    (h : (fieldOf r "Name").getD "" = "" ∨ (fieldOf r "Key").getD "" = "" ∨
         (fieldOf r "Type").getD "" = "") :
    validFields r = none := by
  rcases hn : fieldOf r "Name" with _ | n
  · simp [validFields, hn]
  rcases hk : fieldOf r "Key" with _ | k
  · simp [validFields, hn, hk]
  rcases ht : fieldOf r "Type" with _ | t
  · simp [validFields, hn, hk, ht]
  rw [hn, hk, ht] at h
  simp only [Option.getD_some] at h
  rcases h with h | h | h <;> simp [validFields, hn, hk, ht, h]

/-! ## Claim theorems -/

/-- **C1**: in the route variant that escapes (`esc` of `src/unnamed/part_000`),
every processed row whose trimmed `Name` (or `Key`, `Type`, `Description`)
contains a double quote or backslash is embedded into the outbound mutation
payload through `esc`, and the escaping is a reversible round trip: reading
the escaped value back through the string-literal escape rules yields exactly
the original trimmed value, and the escaped value never terminates the quoted
literal early.  The other variant (`src/app/routes/app._index.tsx`) embeds the
raw trimmed values, the omission the spec flags. -/
theorem C1_escaping_roundtrip (r : Row) (n k t : String)
    (hv : validFields r = some (n, k, t))
    (hq : '"' ∈ n.data ∨ '\\' ∈ n.data ∨ '"' ∈ k.data ∨ '\\' ∈ k.data ∨
          '"' ∈ t.data ∨ '\\' ∈ t.data ∨
          '"' ∈ (descOf r).data ∨ '\\' ∈ (descOf r).data) :
    (∀ g, (stepB g r).2 = [mutationOf (esc n) (esc k) (esc t) (esc (descOf r))] ∧
          (stepA g r).2 = [mutationOf n k t (descOf r)]) ∧
    (∀ v : String, unesc (esc v) = v ∧ breaksLiteral (esc v).data = false) := by
  refine ⟨fun g => ?_, fun v => ⟨unesc_esc v, breaksLiteral_esc v⟩⟩
  cases g <;> simp [stepA, stepB, hv]

theorem C1_escaping_roundtrip_witness :
    (stepB (.failure "e") [("Name", "a\"b"), ("Key", "k"), ("Type", "t")]).2 =
      [mutationOf (esc "a\"b") (esc "k") (esc "t") (esc "")] ∧
    unesc (esc "a\"b") = "a\"b" := by
  have h := C1_escaping_roundtrip [("Name", "a\"b"), ("Key", "k"), ("Type", "t")]
      "a\"b" "k" "t" (by decide) (by decide)
  refine ⟨?_, (h.2 "a\"b").1⟩
  have h2 := (h.1 (.failure "e")).1
  have hd : descOf [("Name", "a\"b"), ("Key", "k"), ("Type", "t")] = "" := rfl
  rw [hd] at h2
  exact h2

/-- **C5**: a row whose trimmed `Name`, `Key` or `Type` is missing, empty or
whitespace-only produces exactly the fixed skip line, sends no mutation, and
the loop continues with the remaining rows. -/
theorem C5_skip_row (r : Row)
    (h : (fieldOf r "Name").getD "" = "" ∨ (fieldOf r "Key").getD "" = "" ∨
         (fieldOf r "Type").getD "" = "") :
    (∀ g, stepA g r = ("⚠️ Skipped row — missing name/key/type", []) ∧
          stepB g r = ("⚠️ Skipped row — missing name/key/type", [])) ∧
    (∀ oracle i rs,
      processA oracle i (r :: rs) =
        ("⚠️ Skipped row — missing name/key/type" :: (processA oracle (i + 1) rs).1,
         (processA oracle (i + 1) rs).2) ∧
      processB oracle i (r :: rs) =
        ("⚠️ Skipped row — missing name/key/type" :: (processB oracle (i + 1) rs).1,
         (processB oracle (i + 1) rs).2)) := by
  have hv := validFields_eq_none r h
  refine ⟨fun g => ⟨by simp [stepA, hv], by simp [stepB, hv]⟩, fun oracle i rs => ⟨?_, ?_⟩⟩
  · show ((stepA (oracle i) r).1 :: _, (stepA (oracle i) r).2 ++ _) = _
    simp [stepA, hv]
  · show ((stepB (oracle i) r).1 :: _, (stepB (oracle i) r).2 ++ _) = _
    simp [stepB, hv]

theorem C5_skip_row_witness :
    stepB (.failure "e") [("Name", "   "), ("Key", "k"), ("Type", "t")] =
      ("⚠️ Skipped row — missing name/key/type", []) :=
  ((C5_skip_row [("Name", "   "), ("Key", "k"), ("Type", "t")] (by decide)).1
    (.failure "e")).2

/-- **C8**: a thrown CSV decode exception is caught by neither action: the
submission fails with the propagated exception message instead of returning a
log. -/
theorem C8_decode_error_uncaught (m : String) (oracle : Nat → GraphQLResult) :
    actionA oracle (some (.err m)) = .error m ∧
    actionB oracle (some (.err m)) = .error m :=
  ⟨rfl, rfl⟩

/-- **C4** counterexample: the variant of `src/app/routes/app._index.tsx` has
no empty-file branch, so a CSV parsing to zero rows does not yield the
"CSV file is empty" error there: it falls through to header validation and
returns the invalid-format log instead. -/
theorem C4_empty_csv_counterexample :
    actionA (fun _ => .failure "e") (some (.ok [])) =
      .ok ⟨none, invalidFormatLogA, []⟩ ∧
    invalidFormatLogA ≠ ["❌ CSV file is empty"] := by
  constructor
  · rfl
  · decide

/-- **C4** amended: on a CSV parsing to zero rows, the variant of
`src/unnamed/part_000` returns the "CSV file is empty" error before header
validation and performs zero network calls; the variant of
`src/app/routes/app._index.tsx` returns its fixed invalid-format error
instead, likewise with zero network calls. -/
theorem C4_empty_csv_amended (oracle : Nat → GraphQLResult) :
    actionB oracle (some (.ok [])) =
      .ok ⟨some "error", ["❌ CSV file is empty"], []⟩ ∧
    actionA oracle (some (.ok [])) = .ok ⟨none, invalidFormatLogA, []⟩ :=
  ⟨rfl, rfl⟩

/-- **C6**: whenever at least one of the exact, case-sensitive column names
`Name`, `Key`, `Type` is absent from the first row's key set (extra columns
play no role in the check), each action returns its fixed multi-line
structural error log, performs zero network calls and processes no rows. -/
theorem C6_missing_headers (oracle : Nat → GraphQLResult) (rows : List Row)
    (hne : rows ≠ [])
    (h : ¬("Name" ∈ headersOf rows ∧ "Key" ∈ headersOf rows ∧
           "Type" ∈ headersOf rows)) :
    actionA oracle (some (.ok rows)) = .ok ⟨none, invalidFormatLogA, []⟩ ∧
    actionB oracle (some (.ok rows)) = .ok ⟨some "error", invalidFormatLogB, []⟩ := by
  have hm : missingHeaders rows ≠ [] := fun hcon =>
    h ((missingHeaders_eq_nil_iff rows).mp hcon)
  have hl : 0 < (missingHeaders rows).length := List.length_pos.mpr hm
  have hrl : ¬(rows.length = 0) := fun c => hne (List.length_eq_zero.mp c)
  exact ⟨by simp [actionA, hl], by simp [actionB, hl, hrl]⟩

theorem C6_missing_headers_witness :
    actionB (fun _ => .failure "e")
        (some (.ok [[("Name", "a"), ("Key", "b"), ("Extra", "c")]])) =
      .ok ⟨some "error", invalidFormatLogB, []⟩ :=
  (C6_missing_headers (fun _ => .failure "e")
    [[("Name", "a"), ("Key", "b"), ("Extra", "c")]] (by decide) (by decide)).2

theorem createdOf_chain (j : RespJson) (c : CreatedDefinition)
    (h : createdOf j = some c) :
    ∃ d m, j.data = some d ∧ d.metafieldDefinitionCreate = some m ∧
      m.createdDefinition = some c := by
  rcases hd : j.data with _ | d
  · simp [createdOf, hd] at h
  · rcases hm : d.metafieldDefinitionCreate with _ | m
    · simp [createdOf, hd, hm] at h
    · exact ⟨d, m, rfl, hm, by simpa [createdOf, hd, hm] using h⟩

theorem userErrorsOf_chain (j : RespJson) (es : List UserError)
    (h : userErrorsOf j = some es) :
    ∃ d m, j.data = some d ∧ d.metafieldDefinitionCreate = some m ∧
      m.userErrors = some es := by
  rcases hd : j.data with _ | d
  · simp [userErrorsOf, hd] at h
  · rcases hm : d.metafieldDefinitionCreate with _ | m
    · simp [userErrorsOf, hd, hm] at h
    · exact ⟨d, m, rfl, hm, by simpa [userErrorsOf, hd, hm] using h⟩

/-- **C2**: for a parsed CSV with no missing required header, each action's
returned log has exactly one entry per input row, and the i-th entry is the
outcome line of the i-th input row: log order equals input row order. -/
theorem C2_log_order (oracle : Nat → GraphQLResult) (rows : List Row)
    (resA resB : ActionResult)
    (hm : missingHeaders rows = [])
    (hA : actionA oracle (some (.ok rows)) = .ok resA)
    (hB : actionB oracle (some (.ok rows)) = .ok resB) :
    resA.log.length = rows.length ∧ resB.log.length = rows.length ∧
    resA.log = (rows.mapIdx fun i r => (stepA (oracle i) r).1) ∧
    resB.log = (rows.mapIdx fun i r => (stepB (oracle i) r).1) := by
  have hne : rows ≠ [] := by
    intro h0
    subst h0
    simp [missingHeaders, headersOf] at hm
  have hrl : ¬(rows.length = 0) := fun c => hne (List.length_eq_zero.mp c)
  have hl : ¬(0 < (missingHeaders rows).length) := by simp [hm]
  have hA2 : resA = ⟨none, (processA oracle 0 rows).1, (processA oracle 0 rows).2⟩ := by
    simpa [actionA, hl] using hA.symm
  have hB2 : resB = ⟨some "success", (processB oracle 0 rows).1,
      (processB oracle 0 rows).2⟩ := by
    simpa [actionB, hl, hrl] using hB.symm
  subst hA2
  subst hB2
  refine ⟨?_, ?_, ?_, ?_⟩ <;>
    simp [processA_fst oracle rows 0, processB_fst oracle rows 0, Nat.zero_add]

set_option maxRecDepth 8192 in
theorem C2_log_order_witness :
    (["❌ Failed for A → boom", "⚠️ Skipped row — missing name/key/type"] :
      List String).length =
      ([[("Name", "A"), ("Key", "a"), ("Type", "t")],
        [("Name", " "), ("Key", "b"), ("Type", "t")]] : List Row).length := by
  have h := C2_log_order (fun _ => .failure "boom")
      [[("Name", "A"), ("Key", "a"), ("Type", "t")],
       [("Name", " "), ("Key", "b"), ("Type", "t")]]
      ⟨none, ["❌ Failed for A → boom", "⚠️ Skipped row — missing name/key/type"],
        [mutationOf "A" "a" "t" ""]⟩
      ⟨some "success",
        ["❌ Failed for A → boom", "⚠️ Skipped row — missing name/key/type"],
        [mutationOf (esc "A") (esc "a") (esc "t") (esc "")]⟩
      (by decide) rfl rfl
  exact h.1

/-- **C3**: for a processed row, the appended log line is determined by the
response: a present `createdDefinition` gives the created line with the row's
name and key; otherwise a present non-empty `userErrors` gives the warning
line joining all error messages with `", "`; otherwise the unknown-response
line; and a thrown transport error gives the failure line carrying the
exception's message. -/
theorem C3_response_interpretation (r : Row) (n k t : String)
    (hv : validFields r = some (n, k, t)) :
    (∀ j c, createdOf j = some c →
      (stepB (.success j) r).1 = "✅ Created metafield: " ++ n ++ " (" ++ k ++ ")" ∧
      (stepA (.success j) r).1 = "✅ Created metafield: " ++ n ++ " (" ++ k ++ ")") ∧
    (∀ j es, createdOf j = none → userErrorsOf j = some es → es ≠ [] →
      (stepB (.success j) r).1 =
        "⚠️ " ++ n ++ " → " ++ String.intercalate ", " (es.map UserError.message) ∧
      (stepA (.success j) r).1 =
        "⚠️ " ++ n ++ " → " ++ String.intercalate ", " (es.map UserError.message)) ∧
    (∀ j, createdOf j = none → (userErrorsOf j = none ∨ userErrorsOf j = some []) →
      (stepB (.success j) r).1 = "⚠️ Unknown response for " ++ n) ∧
    (∀ m, (stepB (.failure m) r).1 = "❌ Failed for " ++ n ++ " → " ++ m ∧
          (stepA (.failure m) r).1 = "❌ Failed for " ++ n ++ " → " ++ m) := by
  refine ⟨?_, ?_, ?_, ?_⟩
  · intro j c hc
    obtain ⟨d, m, hd, hm2, hcd⟩ := createdOf_chain j c hc
    exact ⟨by simp [stepB, hv, respLineB, hc],
           by simp [stepA, hv, respLineA, hd, hm2, hcd]⟩
  · intro j es hc he hne
    obtain ⟨d, m, hd, hm2, hue⟩ := userErrorsOf_chain j es he
    have hcd : m.createdDefinition = none := by
      simpa [createdOf, hd, hm2] using hc
    cases es with
    | nil => exact absurd rfl hne
    | cons e es2 =>
      exact ⟨by simp [stepB, hv, respLineB, hc, he],
             by simp [stepA, hv, respLineA, hd, hm2, hcd, hue]⟩
  · intro j hc hue
    rcases hue with hue | hue <;> simp [stepB, hv, respLineB, hc, hue]
  · intro m
    exact ⟨by simp [stepB, hv], by simp [stepA, hv]⟩

theorem C3_response_interpretation_witness :
    (stepB (.success ⟨some ⟨some ⟨some ⟨"gid", "Color", "color"⟩, some []⟩⟩⟩)
        [("Name", "Color"), ("Key", "color"),
         ("Type", "single_line_text_field"), ("Description", "")]).1 =
      "✅ Created metafield: Color (color)" ∧
    (stepB (.success ⟨some ⟨some ⟨none, some [⟨"Key already exists"⟩]⟩⟩⟩)
        [("Name", "Color"), ("Key", "color"),
         ("Type", "single_line_text_field"), ("Description", "")]).1 =
      "⚠️ Color → Key already exists" := by
  have h := C3_response_interpretation
      [("Name", "Color"), ("Key", "color"),
       ("Type", "single_line_text_field"), ("Description", "")]
      "Color" "color" "single_line_text_field" (by decide)
  constructor
  · have h1 := (h.1 ⟨some ⟨some ⟨some ⟨"gid", "Color", "color"⟩, some []⟩⟩⟩
      ⟨"gid", "Color", "color"⟩ (by decide)).1
    exact h1.trans (by decide)
  · have h2 := (h.2.1 ⟨some ⟨some ⟨none, some [⟨"Key already exists"⟩]⟩⟩⟩
      [⟨"Key already exists"⟩] (by decide) (by decide) (by decide)).1
    exact h2.trans (by decide)

/-- **C7**: variant B's overall `status` is `"error"` exactly when a
structural failure occurred (no file uploaded, empty CSV, or missing required
headers) and `"success"` otherwise, for every behaviour of the network oracle
(per-row outcomes never affect the status); variant A returns no status field
at all. -/
theorem C7_status_structural_only (oracle : Nat → GraphQLResult)
    (req : Option ParseResult) (res : ActionResult)
    (h : actionB oracle req = .ok res) :
    (res.status = some "error" ↔ structuralFailure req = true) ∧
    (res.status = some "success" ↔ structuralFailure req = false) ∧
    (∀ resA, actionA oracle req = .ok resA → resA.status = none) := by
  match req with
  | none =>
    have hres : res = ⟨some "error", ["❌ No file uploaded"], []⟩ := by
      simpa [actionB] using h.symm
    subst hres
    refine ⟨by simp [structuralFailure], by simp [structuralFailure], ?_⟩
    intro resA hA
    have hra : resA = ⟨none, ["❌ No file uploaded"], []⟩ := by
      simpa [actionA] using hA.symm
    simp [hra]
  | some (.err m) => simp [actionB] at h
  | some (.ok rows) =>
    by_cases h0 : rows.length = 0
    · have hrnil : rows = [] := List.length_eq_zero.mp h0
      subst hrnil
      have hres : res = ⟨some "error", ["❌ CSV file is empty"], []⟩ := by
        simpa [actionB] using h.symm
      subst hres
      refine ⟨by simp [structuralFailure], by simp [structuralFailure], ?_⟩
      intro resA hA
      have hra : resA = ⟨none, invalidFormatLogA, []⟩ := by
        simpa [actionA, missingHeaders, headersOf] using hA.symm
      simp [hra]
    · by_cases hm : missingHeaders rows = []
      · have hlm : ¬(0 < (missingHeaders rows).length) := by simp [hm]
        have hres : res = ⟨some "success", (processB oracle 0 rows).1,
            (processB oracle 0 rows).2⟩ := by
          simpa [actionB, h0, hlm] using h.symm
        subst hres
        have hsf : structuralFailure (some (.ok rows)) = false := by
          cases rows with
          | nil => simp at h0
          | cons a l => simp [structuralFailure, hm]
        refine ⟨by simp [hsf], by simp [hsf], ?_⟩
        intro resA hA
        have hra : resA = ⟨none, (processA oracle 0 rows).1,
            (processA oracle 0 rows).2⟩ := by
          simpa [actionA, hlm] using hA.symm
        simp [hra]
      · have hlm : 0 < (missingHeaders rows).length := List.length_pos.mpr hm
        have hres : res = ⟨some "error", invalidFormatLogB, []⟩ := by
          simpa [actionB, h0, hlm] using h.symm
        subst hres
        have hsf : structuralFailure (some (.ok rows)) = true := by
          cases hmh : missingHeaders rows with
          | nil => exact absurd hmh hm
          | cons a l => simp [structuralFailure, hmh]
        refine ⟨by simp [hsf], by simp [hsf], ?_⟩
        intro resA hA
        have hra : resA = ⟨none, invalidFormatLogA, []⟩ := by
          simpa [actionA, hlm] using hA.symm
        simp [hra]

theorem C7_status_structural_only_witness :
    (ActionResult.mk (some "error") ["❌ No file uploaded"] []).status =
      some "error" :=
  ((C7_status_structural_only (fun _ => .failure "e") none
      ⟨some "error", ["❌ No file uploaded"], []⟩ rfl).1).mpr (by decide)

/-- **C9**: for a processed row whose parsed response lacks `data` or
`data.metafieldDefinitionCreate`, variant A (which reads
`json.data.metafieldDefinitionCreate` without optional chaining) throws
inside the per-row try block and reports the transport-failure line
`❌ Failed for {name} → ...`, while variant B (optional chaining) reports
`⚠️ Unknown response for {name}`; in both variants the loop continues with
the next row. -/
theorem C9_missing_data_difference (r : Row) (n k t : String)
    (hv : validFields r = some (n, k, t)) (j : RespJson)
    (hj : j.data = none ∨
          ∃ d, j.data = some d ∧ d.metafieldDefinitionCreate = none) :
    (∃ s, (stepA (.success j) r).1 = "❌ Failed for " ++ n ++ " → " ++ s) ∧
    (stepB (.success j) r).1 = "⚠️ Unknown response for " ++ n ∧
    (∀ oracle i rs,
      (processA oracle i (r :: rs)).1 =
        (stepA (oracle i) r).1 :: (processA oracle (i + 1) rs).1 ∧
      (processB oracle i (r :: rs)).1 =
        (stepB (oracle i) r).1 :: (processB oracle (i + 1) rs).1) := by
  have hcb : createdOf j = none := by
    rcases hj with hd | ⟨d, hd, hm⟩
    · simp [createdOf, hd]
    · simp [createdOf, hd, hm]
  have hub : userErrorsOf j = none := by
    rcases hj with hd | ⟨d, hd, hm⟩
    · simp [userErrorsOf, hd]
    · simp [userErrorsOf, hd, hm]
  refine ⟨?_, by simp [stepB, hv, respLineB, hcb, hub],
    fun oracle i rs => ⟨rfl, rfl⟩⟩
  rcases hj with hd | ⟨d, hd, hm⟩
  · exact ⟨undefinedReadMsg "metafieldDefinitionCreate",
      by simp [stepA, hv, respLineA, hd]⟩
  · exact ⟨undefinedReadMsg "createdDefinition",
      by simp [stepA, hv, respLineA, hd, hm]⟩

theorem C9_missing_data_difference_witness :
    (stepB (.success ⟨none⟩) [("Name", "Color"), ("Key", "color"), ("Type", "t")]).1 =
      "⚠️ Unknown response for Color" := by
  have h := C9_missing_data_difference
      [("Name", "Color"), ("Key", "color"), ("Type", "t")]
      "Color" "color" "t" (by decide) ⟨none⟩ (Or.inl rfl)
  exact h.2.1.trans (by decide)

set_option maxRecDepth 16384 in
/-- **C10**: a missing `Description` and a whitespace-only `Description` both
normalise to the empty string before the payload is built, so two rows
identical except for that difference produce identical mutation payloads in
both variants; and every payload contains the fixed `namespace: "custom"`
and `ownerType: PRODUCT` segments regardless of the embedded values. -/
theorem C10_description_and_constants (r r2 : Row) (n k t : String)
    (hv : validFields r = some (n, k, t))
    (hv2 : validFields r2 = some (n, k, t))
    (hd : List.lookup "Description" r = none)
    (hd2 : ∃ w, List.lookup "Description" r2 = some w ∧ trim w = "") :
    descOf r = "" ∧ descOf r2 = "" ∧
    (∀ g g2, (stepB g r).2 = (stepB g2 r2).2 ∧ (stepA g r).2 = (stepA g2 r2).2) ∧
    (∀ nm ky ty ds,
      List.IsInfix ("namespace: \"custom\"").data (mutationOf nm ky ty ds).data ∧
      List.IsInfix ("ownerType: PRODUCT").data (mutationOf nm ky ty ds).data) := by
  obtain ⟨w, hw, hwt⟩ := hd2
  have h1 : descOf r = "" := by simp [descOf, fieldOf, hd]
  have h2 : descOf r2 = "" := by simp [descOf, fieldOf, hw, hwt]
  refine ⟨h1, h2, fun g g2 => ?_, fun nm ky ty ds => ⟨?_, ?_⟩⟩
  · constructor <;> cases g <;> cases g2 <;>
      simp [stepA, stepB, hv, hv2, h1, h2]
  · refine ⟨("\n      mutation \x7b\n        metafieldDefinitionCreate(\n          definition: \x7b\n            name: \"" ++
        nm ++ "\"\n            ").data,
      ("\n            key: \"" ++ ky ++ "\"\n            type: \"" ++ ty ++
        "\"\n            description: \"" ++ ds ++
        "\"\n            ownerType: PRODUCT\n          \x7d\n        ) \x7b\n          createdDefinition \x7b id name key \x7d\n          userErrors \x7b message \x7d\n        \x7d\n      \x7d\n    ").data, ?_⟩
    have hc : ("\"\n            namespace: \"custom\"\n            key: \"" : String).data =
        ("\"\n            " : String).data ++ ("namespace: \"custom\"" : String).data ++
        ("\n            key: \"" : String).data := by decide
    simp [mutationOf, hc, List.append_assoc]
  · refine ⟨("\n      mutation \x7b\n        metafieldDefinitionCreate(\n          definition: \x7b\n            name: \"" ++
        nm ++ "\"\n            namespace: \"custom\"\n            key: \"" ++ ky ++
        "\"\n            type: \"" ++ ty ++ "\"\n            description: \"" ++ ds ++
        "\"\n            ").data,
      ("\n          \x7d\n        ) \x7b\n          createdDefinition \x7b id name key \x7d\n          userErrors \x7b message \x7d\n        \x7d\n      \x7d\n    ").data, ?_⟩
    have hc : ("\"\n            ownerType: PRODUCT\n          \x7d\n        ) \x7b\n          createdDefinition \x7b id name key \x7d\n          userErrors \x7b message \x7d\n        \x7d\n      \x7d\n    " : String).data =
        ("\"\n            " : String).data ++ ("ownerType: PRODUCT" : String).data ++
        ("\n          \x7d\n        ) \x7b\n          createdDefinition \x7b id name key \x7d\n          userErrors \x7b message \x7d\n        \x7d\n      \x7d\n    " : String).data := by decide
    simp [mutationOf, hc, List.append_assoc]

theorem C10_description_and_constants_witness :
    descOf [("Name", "A"), ("Key", "a"), ("Type", "t")] = "" ∧
    descOf [("Name", "A"), ("Key", "a"), ("Type", "t"), ("Description", "  ")] = "" := by
  have h := C10_description_and_constants
      [("Name", "A"), ("Key", "a"), ("Type", "t")]
      [("Name", "A"), ("Key", "a"), ("Type", "t"), ("Description", "  ")]
      "A" "a" "t" (by decide) (by decide) (by decide)
      ⟨"  ", by decide, by decide⟩
  exact ⟨h.1, h.2.1⟩
